import Mathlib

/-!
Verification of the type-adding section mutator (crates/wasm-mutate/src/mutators/add_type.rs).

The mutator draws a fresh function signature from a seeded random source, decodes the
module's existing type-table section (if any), appends the new signature, re-encodes the
table, and either replaces the existing section in place or inserts a fresh one at
structural index 0.  The mutator itself lives in the repository; the parser
(wasmparser), the encoder (wasm_encoder), the module/section store (ModuleInfo) and the
random source are external collaborators and are modelled from the specification where
noted.
-/

namespace AddType

/-- Encoder-side value types: the seven kinds of wasm_encoder::ValType produced by this
mutator (lines 20-26 of add_type.rs). -/
inductive ValType
  | I32
  | I64
  | F32
  | F64
  | V128
  | ExternRef
  | FuncRef
deriving DecidableEq, Repr

/-- Modelled from the spec: parser-side reference types (wasmparser::RefType, not under
src).  FUNC_REF and EXTERN_REF are the two kinds the mutator supports; `other` stands
for any further reference type the external parser accepts (translate_ref_type hits its
catch-all on those). -/
inductive RefType
  | funcRef
  | externRef
  | other (n : Nat)
deriving DecidableEq, Repr

/-- Modelled from the spec: parser-side value types (wasmparser::ValType, not under
src): four scalars, one vector, reference types, and the bottom type. -/
inductive PValType
  | I32
  | I64
  | F32
  | F64
  | V128
  | Ref (rt : RefType)
  | Bot
deriving DecidableEq, Repr

/-- Modelled from the spec: a parser-side function type record (wasmparser::FuncType). -/
structure PFuncType where
  params : List PValType
  returns : List PValType
deriving DecidableEq, Repr

/-- Modelled from the spec: parser-side type-table entries (wasmparser::Type): plain
function types and continuation entries. -/
inductive PType
  | Func (ft : PFuncType)
  | Cont (n : Nat)
deriving DecidableEq, Repr

/-- Modelled from the spec: the error taxonomy (DecodeError for truncated or malformed
bytes, UnsupportedConstruct for semantically unhandled entries, EncodingOverflow for
unrepresentable counts). -/
inductive Error
  | decodeError
  | unsupportedConstruct
  | encodingOverflow
deriving DecidableEq, Repr

/-- Result of a fallible computation that may also terminate with an unchecked fault: a
Rust panic raised by an unimplemented or unreachable arm. -/
inductive PResult (α : Type)
  | ok (a : α)
  | err (e : Error)
  | panik
deriving DecidableEq, Repr

/-- An encoder-side function signature: ordered params and results over the seven
supported value types. -/
structure Sig where
  params : List ValType
  results : List ValType
deriving DecidableEq, Repr

/-- Modelled from the spec: the external random source (not under src).  It is
seed-reproducible: a fixed stream of raw draws consumed at a monotonically advancing
cursor. -/
structure Rng where
  stream : Nat → Nat
  cursor : Nat

/-- Modelled from the spec: one uniform draw from the closed interval from 0 to hi,
advancing the cursor by exactly one position (rand::Rng::gen_range over an inclusive
range, not under src). -/
def gen_range (hi : Nat) (rng : Rng) : Nat × Rng :=
  (rng.stream rng.cursor % (hi + 1), ⟨rng.stream, rng.cursor + 1⟩)

/-- The seven-armed match of random_valtype (lines 19-28 of add_type.rs): tags 0-6 map
to the seven value types, anything else is the unreachable panic arm. -/
def valtypeOfTag : Nat → PResult ValType
  | 0 => .ok .I32
  | 1 => .ok .I64
  | 2 => .ok .F32
  | 3 => .ok .F64
  | 4 => .ok .V128
  | 5 => .ok .ExternRef
  | 6 => .ok .FuncRef
  | _ => .panik

/-- AddTypeMutator::random_valtype: draw a tag in 0..=6 and map it through the match. -/
def random_valtype (rng : Rng) : PResult ValType × Rng :=
  let p := gen_range 6 rng
  (valtypeOfTag p.1, p.2)

/-- The push loop of mutate (lines 43-45 and 49-51): draw n value types left to right,
propagating a panic of any draw. -/
def genValtypes : Nat → Rng → PResult (List ValType) × Rng
  | 0, rng => (.ok [], rng)
  | n + 1, rng =>
    match random_valtype rng with
    | (.ok v, rng') =>
      match genValtypes n rng' with
      | (.ok vs, rng'') => (.ok (v :: vs), rng'')
      | (.err e, rng'') => (.err e, rng'')
      | (.panik, rng'') => (.panik, rng'')
    | (.err e, rng') => (.err e, rng')
    | (.panik, rng') => (.panik, rng')

/-- The mutator's configuration bounds (fields of AddTypeMutator). -/
structure AddTypeMutator where
  max_params : Nat
  max_results : Nat
deriving DecidableEq, Repr

/-- Lines 41-51 of mutate: draw the param count in 0..=max_params, then the param
types, then the result count in 0..=max_results, then the result types. -/
def generateSig (self : AddTypeMutator) (rng : Rng) : PResult Sig × Rng :=
  let p1 := gen_range self.max_params rng
  match genValtypes p1.1 p1.2 with
  | (.ok params, rng1) =>
    let p2 := gen_range self.max_results rng1
    match genValtypes p2.1 p2.2 with
    | (.ok results, rng2) => (.ok ⟨params, results⟩, rng2)
    | (.err e, rng2) => (.err e, rng2)
    | (.panik, rng2) => (.panik, rng2)
  | (.err e, rng1) => (.err e, rng1)
  | (.panik, rng1) => (.panik, rng1)

/-- Modelled from the spec: the draw order the specification asserts (SignatureGenerator
contract: param-count draw, result-count draw, then each type draw left-to-right with
params before results), for comparison with generateSig as the source orders it. -/
def generateSigSpecOrder (self : AddTypeMutator) (rng : Rng) : PResult Sig × Rng :=
  let p1 := gen_range self.max_params rng
  let p2 := gen_range self.max_results p1.2
  match genValtypes p1.1 p2.2 with
  | (.ok params, rng1) =>
    match genValtypes p2.1 rng1 with
    | (.ok results, rng2) => (.ok ⟨params, results⟩, rng2)
    | (.err e, rng2) => (.err e, rng2)
    | (.panik, rng2) => (.panik, rng2)
  | (.err e, rng1) => (.err e, rng1)
  | (.panik, rng1) => (.panik, rng1)

/-- Kinds of raw module sections: the type table, non-structural custom sections, and
the other structural section kinds. -/
inductive SectionKind
  | typeSec
  | custom
  | otherSec (k : Nat)
deriving DecidableEq, Repr

/-- A section is structural unless it is a non-structural (custom) section. -/
def SectionKind.isStructural : SectionKind → Bool
  | .custom => false
  | _ => true

/-- A raw module section: its kind and its payload bytes. -/
structure RawSection where
  kind : SectionKind
  data : List Nat
deriving DecidableEq, Repr

/-- Modelled from the spec: the module/section store (ModuleInfo, not under src): the
ordered raw sections of the module. -/
structure ModuleInfo where
  sections : List RawSection
deriving DecidableEq, Repr

/-- Modelled from the spec: look up the type-table section, returning its structural
index (its position counting structural sections only) and its payload bytes. -/
def findTypeSection : List RawSection → Option (Nat × List Nat)
  | [] => none
  | s :: rest =>
    if s.kind = .typeSec then some (0, s.data)
    else
      match findTypeSection rest with
      | none => none
      | some (i, d) => some ((if s.kind.isStructural then i + 1 else i), d)

/-- ModuleInfo::get_type_section paired with the stored type-section index. -/
def get_type_section (m : ModuleInfo) : Option (Nat × List Nat) :=
  findTypeSection m.sections

/-- Modelled from the spec: replace the payload of the section at the given structural
index, leaving every other section untouched; non-structural sections are passed over
transparently. -/
def replaceAtStructural (idx : Nat) (bytes : List Nat) : List RawSection → List RawSection
  | [] => []
  | s :: rest =>
    if s.kind.isStructural then
      if idx = 0 then ⟨s.kind, bytes⟩ :: rest
      else s :: replaceAtStructural (idx - 1) bytes rest
    else s :: replaceAtStructural idx bytes rest

/-- Modelled from the spec: insert a new section at the given structural index, passing
over non-structural sections transparently so that leading custom sections stay in
front. -/
def insertAtStructural (idx : Nat) (sec : RawSection) : List RawSection → List RawSection
  | [] => [sec]
  | s :: rest =>
    if s.kind.isStructural then
      if idx = 0 then sec :: s :: rest
      else s :: insertAtStructural (idx - 1) sec rest
    else s :: insertAtStructural idx sec rest

/-- ModuleInfo::replace_section: the module with the section at the given structural
index replaced by the new bytes. -/
def replace_section (idx : Nat) (bytes : List Nat) (m : ModuleInfo) : ModuleInfo :=
  ⟨replaceAtStructural idx bytes m.sections⟩

/-- ModuleInfo::insert_section: the module with a new type-table section holding the
given bytes inserted at the given structural index. -/
def insert_section (idx : Nat) (bytes : List Nat) (m : ModuleInfo) : ModuleInfo :=
  ⟨insertAtStructural idx ⟨.typeSec, bytes⟩ m.sections⟩

/-- Modelled from the spec: unsigned LEB128 encoding of a count, written with explicit
fuel so that it is structurally recursive; the fuel never runs out when it is at least
the value being encoded. -/
def encodeLEBFuel : Nat → Nat → List Nat
  | 0, n => [n]
  | fuel + 1, n =>
    if n < 128 then [n]
    else (n % 128 + 128) :: encodeLEBFuel fuel (n / 128)

/-- Modelled from the spec: unsigned LEB128 encoding of a count, as used for all count
prefixes of the wire format. -/
def encodeLEB (n : Nat) : List Nat :=
  encodeLEBFuel n n

/-- Modelled from the spec: unsigned LEB128 decoding; fails on a truncated stream. -/
def decodeLEB : List Nat → Option (Nat × List Nat)
  | [] => none
  | b :: rest =>
    if b < 128 then some (b, rest)
    else
      match decodeLEB rest with
      | none => none
      | some (m, rest') => some (b - 128 + 128 * m, rest')

/-- Modelled from the spec: the single-byte wire tag of each of the seven value types
(wasm_encoder, not under src). -/
def encodeValType : ValType → Nat
  | .I32 => 0x7F
  | .I64 => 0x7E
  | .F32 => 0x7D
  | .F64 => 0x7C
  | .V128 => 0x7B
  | .ExternRef => 0x6F
  | .FuncRef => 0x70

/-- Modelled from the spec: one function-type record as wasm_encoder writes it: the
function form tag, then a count-prefixed params vector and a count-prefixed results
vector of single-byte tags. -/
def encodeSig (s : Sig) : List Nat :=
  0x60 :: (encodeLEB s.params.length ++ s.params.map encodeValType
    ++ encodeLEB s.results.length ++ s.results.map encodeValType)

/-- Modelled from the spec: wasm_encoder::TypeSection serialization: a count prefix
followed by the encoded records. -/
def encodeTypeSection (l : List Sig) : List Nat :=
  encodeLEB l.length ++ (l.map encodeSig).flatten

/-- Modelled from the spec: the parser's reading of one value-type byte (wasmparser,
not under src).  The seven supported tags decode to their kinds; tag 0x6B stands for a
parser-accepted reference type outside the supported two; any other byte is rejected as
malformed. -/
def decodeValTypeByte (b : Nat) : Option PValType :=
  if b = 0x7F then some .I32
  else if b = 0x7E then some .I64
  else if b = 0x7D then some .F32
  else if b = 0x7C then some .F64
  else if b = 0x7B then some .V128
  else if b = 0x70 then some (.Ref .funcRef)
  else if b = 0x6F then some (.Ref .externRef)
  else if b = 0x6B then some (.Ref (.other 0))
  else none

/-- Modelled from the spec: read n value-type bytes; fails with a decode error when the
stream is truncated or a byte is malformed. -/
def readPVals : Nat → List Nat → PResult (List PValType × List Nat)
  | 0, bs => .ok ([], bs)
  | _ + 1, [] => .err .decodeError
  | n + 1, b :: bs =>
    match decodeValTypeByte b with
    | none => .err .decodeError
    | some v =>
      match readPVals n bs with
      | .ok (vs, rest) => .ok (v :: vs, rest)
      | .err e => .err e
      | .panik => .panik

/-- Modelled from the spec: read one count-prefixed value-type vector. -/
def readPVec (bs : List Nat) : PResult (List PValType × List Nat) :=
  match decodeLEB bs with
  | none => .err .decodeError
  | some (n, rest) => readPVals n rest

/-- Modelled from the spec: TypeSectionReader::read (wasmparser, not under src): one
record is a form tag, then for the function form a params vector and a results vector;
the continuation form carries a count-encoded payload; any other form tag is rejected
as malformed. -/
def readPType (bs : List Nat) : PResult (PType × List Nat) :=
  match bs with
  | [] => .err .decodeError
  | b :: rest =>
    if b = 0x60 then
      match readPVec rest with
      | .ok (ps, rest1) =>
        match readPVec rest1 with
        | .ok (rs, rest2) => .ok (.Func ⟨ps, rs⟩, rest2)
        | .err e => .err e
        | .panik => .panik
      | .err e => .err e
      | .panik => .panik
    else if b = 0x5F then
      match decodeLEB rest with
      | none => .err .decodeError
      | some (n, rest1) => .ok (.Cont n, rest1)
    else .err .decodeError

/-- Function translate_ref_type (lines 103-109 of add_type.rs): the two supported
reference kinds translate; any other reference type hits the unimplemented panic arm. -/
def translate_ref_type : RefType → PResult ValType
  | .funcRef => .ok .FuncRef
  | .externRef => .ok .ExternRef
  | .other _ => .panik

/-- Function translate_type (lines 91-101 of add_type.rs): scalars and the vector type
translate directly, reference types go through translate_ref_type, and the bottom type
hits the unreachable panic arm. -/
def translate_type : PValType → PResult ValType
  | .I32 => .ok .I32
  | .I64 => .ok .I64
  | .F32 => .ok .F32
  | .F64 => .ok .F64
  | .V128 => .ok .V128
  | .Ref rt => translate_ref_type rt
  | .Bot => .panik

/-- The collect over translate_type in mutate (lines 61-70): translate a list of
parser-side value types, stopping at the first failure. -/
def translateList : List PValType → PResult (List ValType)
  | [] => .ok []
  | v :: vs =>
    match translate_type v with
    | .ok w =>
      match translateList vs with
      | .ok ws => .ok (w :: ws)
      | .err e => .err e
      | .panik => .panik
    | .err e => .err e
    | .panik => .panik

/-- The copy loop of mutate (lines 57-75): read the announced number of records one by
one, translating each function record into an encoder-side signature and panicking on a
continuation record (the unimplemented arm); bytes beyond the announced count are
ignored, as in the source loop. -/
def readAndTranslate : Nat → List Nat → PResult (List Sig)
  | 0, _ => .ok []
  | n + 1, bs =>
    match readPType bs with
    | .ok (.Func ft, rest) =>
      match translateList ft.params with
      | .ok ps =>
        match translateList ft.returns with
        | .ok rs =>
          match readAndTranslate n rest with
          | .ok sigs => .ok (⟨ps, rs⟩ :: sigs)
          | .err e => .err e
          | .panik => .panik
        | .err e => .err e
        | .panik => .panik
      | .err e => .err e
      | .panik => .panik
    | .ok (.Cont _, _) => .panik
    | .err e => .err e
    | .panik => .panik

/-- The decode pipeline of mutate over an existing type-table section (lines 56-75):
TypeSectionReader::new reads the count header, then the copy loop reads and translates
that many records. -/
def decodeSection (data : List Nat) : PResult (List Sig) :=
  match decodeLEB data with
  | none => .err .decodeError
  | some (count, rest) => readAndTranslate count rest

/-- The store operations mutate may request of the module/section store. -/
inductive StoreOp
  | replaceSection (idx : Nat) (bytes : List Nat)
  | insertSection (idx : Nat) (bytes : List Nat)
deriving DecidableEq, Repr

/-- AddTypeMutator::mutate (lines 37-88 of add_type.rs): draw the new signature first,
then look up the existing type table; if present, decode it, append the new signature,
re-encode and replace the section in place; if absent, encode a singleton table and
insert it at structural index 0.  The returned triple is the produced module (or error
or panic), the list of store operations performed, and the advanced random source. -/
def mutate (self : AddTypeMutator) (rng : Rng) (info : ModuleInfo) :
    PResult ModuleInfo × List StoreOp × Rng :=
  match generateSig self rng with
  | (.ok sig, rng') =>
    (match get_type_section info with
     | some (idx, data) =>
       match decodeSection data with
       | .ok sigs =>
         let bytes := encodeTypeSection (sigs ++ [sig])
         (.ok (replace_section idx bytes info), [.replaceSection idx bytes], rng')
       | .err e => (.err e, [], rng')
       | .panik => (.panik, [], rng')
     | none =>
       let bytes := encodeTypeSection [sig]
       (.ok (insert_section 0 bytes info), [.insertSection 0 bytes], rng'))
  | (.err e, rng') => (.err e, [], rng')
  | (.panik, rng') => (.panik, [], rng')

/-- The parser-side image of an encoder-side value type: what the parser reads back
from the byte the encoder writes for it. -/
def reparsedValType : ValType → PValType
  | .I32 => .I32
  | .I64 => .I64
  | .F32 => .F32
  | .F64 => .F64
  | .V128 => .V128
  | .ExternRef => .Ref .externRef
  | .FuncRef => .Ref .funcRef

/-- A concrete random source whose first four raw draws are 1, 3, 1, 4. -/
def rngT : Rng := ⟨fun n => [1, 3, 1, 4].getD n 0, 0⟩

/-- A concrete random source that always draws 0. -/
def rng0 : Rng := ⟨fun _ => 0, 0⟩

/-- Two concrete random sources that agree on raw draws 0 to 3 and differ beyond. -/
def rngW1 : Rng := ⟨fun n => if n < 4 then n else 5, 0⟩

/-- Companion to rngW1: same first four raw draws, different afterwards. -/
def rngW2 : Rng := ⟨fun n => if n < 4 then n else 77, 0⟩

/-- A concrete module whose type-table section holds one continuation record: count 1,
then the continuation form tag 0x5F with payload 0. -/
def contInfo : ModuleInfo := ⟨[⟨.typeSec, [1, 0x5F, 0]⟩]⟩

/-- A concrete module whose type-table section is truncated: it announces two records
but holds only one. -/
def truncInfo : ModuleInfo := ⟨[⟨.typeSec, [2, 0x60, 0, 0]⟩]⟩

/-- A concrete module with a leading custom section, a type table holding one signature
taking an I32 to an I64, and a trailing structural section. -/
def okInfo : ModuleInfo :=
  ⟨[⟨.custom, [9, 9]⟩, ⟨.typeSec, [1, 0x60, 1, 0x7F, 1, 0x7E]⟩, ⟨.otherSec 3, [5]⟩]⟩

/-- A concrete module with no type table: a custom section followed by one other
structural section. -/
def noTypesInfo : ModuleInfo := ⟨[⟨.custom, [9]⟩, ⟨.otherSec 7, [5]⟩]⟩

lemma decodeLEB_encodeLEBFuel (fuel : Nat) :
    ∀ n tail, n ≤ fuel → decodeLEB (encodeLEBFuel fuel n ++ tail) = some (n, tail) := by
  induction fuel with
  | zero =>
    intro n tail hn
    interval_cases n
    simp [encodeLEBFuel, decodeLEB]
  | succ fuel ih =>
    intro n tail hn
    by_cases h : n < 128
    · simp [encodeLEBFuel, h, decodeLEB]
    · have hdiv : n / 128 ≤ fuel := by omega
      have hrec := ih (n / 128) tail hdiv
      simp only [encodeLEBFuel, h, if_false, List.cons_append, decodeLEB]
      have hb : ¬ n % 128 + 128 < 128 := by omega
      simp only [hb, if_false, hrec]
      have hmod : n % 128 + 128 - 128 + 128 * (n / 128) = n := by
        have := Nat.mod_add_div n 128
        omega
      rw [hmod]

lemma decodeLEB_encodeLEB (n : Nat) (tail : List Nat) :
    decodeLEB (encodeLEB n ++ tail) = some (n, tail) :=
  decodeLEB_encodeLEBFuel n n tail le_rfl

lemma valtypeOfTag_lt_seven (k : Nat) (hk : k < 7) : ∃ v, valtypeOfTag k = .ok v := by
  interval_cases k <;> exact ⟨_, rfl⟩

lemma genValtypes_char (n : Nat) :
    ∀ rng : Rng, ∃ vs : List ValType,
      genValtypes n rng = (.ok vs, ⟨rng.stream, rng.cursor + n⟩) ∧
      vs.length = n ∧
      ∀ i (hi : i < vs.length),
        valtypeOfTag (rng.stream (rng.cursor + i) % 7) = .ok (vs.get ⟨i, hi⟩) := by
  induction n with
  | zero =>
    intro rng
    refine ⟨[], ?_, rfl, ?_⟩
    · cases rng; simp [genValtypes]
    · intro i hi; simp at hi
  | succ n ih =>
    intro rng
    have hk : rng.stream rng.cursor % 7 < 7 := Nat.mod_lt _ (by norm_num)
    obtain ⟨v, hv⟩ := valtypeOfTag_lt_seven _ hk
    obtain ⟨vs, hvs, hlen, hget⟩ := ih ⟨rng.stream, rng.cursor + 1⟩
    refine ⟨v :: vs, ?_, by simp [hlen], ?_⟩
    · have hrv : random_valtype rng = (.ok v, ⟨rng.stream, rng.cursor + 1⟩) := by
        simp only [random_valtype, gen_range]
        rw [show (6 + 1) = 7 from rfl, hv]
      have harith : rng.cursor + 1 + n = rng.cursor + (n + 1) := by omega
      simp only at hvs
      simp only [genValtypes, hrv, hvs, harith]
    · intro i hi
      match i with
      | 0 => simpa using hv
      | j + 1 =>
        have hj : j < vs.length := by simpa using hi
        have := hget j hj
        simp only at this
        have harith : rng.cursor + (j + 1) = rng.cursor + 1 + j := by omega
        rw [harith, this]
        rfl

lemma generateSig_char (self : AddTypeMutator) (rng : Rng) :
    ∃ sig : Sig,
      generateSig self rng =
        (.ok sig, ⟨rng.stream, rng.cursor + (2 + sig.params.length + sig.results.length)⟩) ∧
      sig.params.length = rng.stream rng.cursor % (self.max_params + 1) ∧
      sig.results.length =
        rng.stream (rng.cursor + 1 + sig.params.length) % (self.max_results + 1) ∧
      (∀ i (hi : i < sig.params.length),
        valtypeOfTag (rng.stream (rng.cursor + 1 + i) % 7) = .ok (sig.params.get ⟨i, hi⟩)) ∧
      (∀ j (hj : j < sig.results.length),
        valtypeOfTag (rng.stream (rng.cursor + 2 + sig.params.length + j) % 7) =
          .ok (sig.results.get ⟨j, hj⟩)) := by
  obtain ⟨ps, hps, hplen, hpget⟩ := genValtypes_char
    (rng.stream rng.cursor % (self.max_params + 1)) ⟨rng.stream, rng.cursor + 1⟩
  simp only at hps hpget
  obtain ⟨rs, hrs, hrlen, hrget⟩ := genValtypes_char
    (rng.stream (rng.cursor + 1 + (rng.stream rng.cursor % (self.max_params + 1))) %
      (self.max_results + 1))
    ⟨rng.stream, rng.cursor + 1 + (rng.stream rng.cursor % (self.max_params + 1)) + 1⟩
  simp only at hrs hrget
  refine ⟨⟨ps, rs⟩, ?_, by simpa using hplen, ?_, ?_, ?_⟩
  · simp only [generateSig, gen_range, hps, hrs]
    simp only [Prod.mk.injEq, PResult.ok.injEq, Rng.mk.injEq, true_and]
    omega
  · simp only [hplen, hrlen]
  · intro i hi
    have := hpget i (by simpa using hi)
    simpa using this
  · intro j hj
    have := hrget j (by simpa using hj)
    have harith : rng.cursor + 1 + (rng.stream rng.cursor % (self.max_params + 1)) + 1 + j =
        rng.cursor + 2 + ps.length + j := by omega
    rw [harith] at this
    simpa using this

lemma mutate_eq (self : AddTypeMutator) (rng : Rng) (info : ModuleInfo) :
    ∃ sig rng', generateSig self rng = (.ok sig, rng') ∧
      mutate self rng info =
        (match get_type_section info with
         | some (idx, data) =>
           match decodeSection data with
           | .ok sigs =>
             (.ok (replace_section idx (encodeTypeSection (sigs ++ [sig])) info),
              [.replaceSection idx (encodeTypeSection (sigs ++ [sig]))], rng')
           | .err e => (.err e, [], rng')
           | .panik => (.panik, [], rng')
         | none =>
           (.ok (insert_section 0 (encodeTypeSection [sig]) info),
            [.insertSection 0 (encodeTypeSection [sig])], rng')) := by
  obtain ⟨sig, hsig, -, -, -, -⟩ := generateSig_char self rng
  exact ⟨sig, _, hsig, by simp only [mutate, hsig]⟩

lemma translate_type_ne_err (v : PValType) (e : Error) : translate_type v ≠ .err e := by
  cases v with
  | Ref rt => cases rt <;> simp [translate_type, translate_ref_type]
  | I32 => simp [translate_type]
  | I64 => simp [translate_type]
  | F32 => simp [translate_type]
  | F64 => simp [translate_type]
  | V128 => simp [translate_type]
  | Bot => simp [translate_type]

lemma translateList_ne_err (vs : List PValType) : ∀ e : Error, translateList vs ≠ .err e := by
  induction vs with
  | nil => intro e; simp [translateList]
  | cons v vs ih =>
    intro e
    rcases h : translate_type v with w | e' | -
    · rcases h2 : translateList vs with ws | e2 | -
      · simp [translateList, h, h2]
      · exact absurd h2 (ih e2)
      · simp [translateList, h, h2]
    · exact absurd h (translate_type_ne_err v e')
    · simp [translateList, h]

lemma readPVals_ne_unsup (n : Nat) :
    ∀ bs, readPVals n bs ≠ .err .unsupportedConstruct := by
  induction n with
  | zero => intro bs; simp [readPVals]
  | succ n ih =>
    intro bs
    match bs with
    | [] => simp [readPVals]
    | b :: bs' =>
      rcases hv : decodeValTypeByte b with - | v
      · simp [readPVals, hv]
      · rcases hr : readPVals n bs' with p | e | -
        · simp [readPVals, hv, hr]
        · simp only [readPVals, hv, hr, ne_eq, PResult.err.injEq]
          rintro rfl
          exact ih bs' hr
        · simp [readPVals, hv, hr]

lemma readPVec_ne_unsup (bs : List Nat) : readPVec bs ≠ .err .unsupportedConstruct := by
  rcases h : decodeLEB bs with - | ⟨n, rest⟩
  · simp [readPVec, h]
  · simp only [readPVec, h]
    exact readPVals_ne_unsup n rest

lemma readPType_ne_unsup (bs : List Nat) : readPType bs ≠ .err .unsupportedConstruct := by
  match bs with
  | [] => simp [readPType]
  | b :: rest =>
    by_cases h60 : b = 0x60
    · rcases h1 : readPVec rest with ⟨ps, rest1⟩ | e | -
      · rcases h2 : readPVec rest1 with ⟨rs, rest2⟩ | e | -
        · simp [readPType, h60, h1, h2]
        · simp only [readPType, h60, if_true, h1, h2, ne_eq, PResult.err.injEq]
          rintro rfl
          exact readPVec_ne_unsup rest1 h2
        · simp [readPType, h60, h1, h2]
      · simp only [readPType, h60, if_true, h1, ne_eq, PResult.err.injEq]
        rintro rfl
        exact readPVec_ne_unsup rest h1
      · simp [readPType, h60, h1]
    · by_cases h5F : b = 0x5F
      · rcases h1 : decodeLEB rest with - | ⟨n, rest1⟩
        · simp [readPType, h60, h5F, h1]
        · simp [readPType, h60, h5F, h1]
      · simp [readPType, h60, h5F]

lemma readAndTranslate_ne_unsup (n : Nat) :
    ∀ bs, readAndTranslate n bs ≠ .err .unsupportedConstruct := by
  induction n with
  | zero => intro bs; simp [readAndTranslate]
  | succ n ih =>
    intro bs
    rcases h : readPType bs with ⟨pt, rest⟩ | e | -
    · match pt with
      | .Func ft =>
        rcases h1 : translateList ft.params with ps | e | -
        · rcases h2 : translateList ft.returns with rs | e | -
          · rcases h3 : readAndTranslate n rest with sigs | e | -
            · simp [readAndTranslate, h, h1, h2, h3]
            · simp only [readAndTranslate, h, h1, h2, h3, ne_eq, PResult.err.injEq]
              rintro rfl
              exact ih rest h3
            · simp [readAndTranslate, h, h1, h2, h3]
          · exact absurd h2 (translateList_ne_err ft.returns e)
          · simp [readAndTranslate, h, h1, h2]
        · exact absurd h1 (translateList_ne_err ft.params e)
        · simp [readAndTranslate, h, h1]
      | .Cont m => simp [readAndTranslate, h]
    · simp only [readAndTranslate, h, ne_eq, PResult.err.injEq]
      rintro rfl
      exact readPType_ne_unsup bs h
    · simp [readAndTranslate, h]

lemma decodeSection_ne_unsup (data : List Nat) :
    decodeSection data ≠ .err .unsupportedConstruct := by
  rcases h : decodeLEB data with - | ⟨n, rest⟩
  · simp [decodeSection, h]
  · simp only [decodeSection, h]
    exact readAndTranslate_ne_unsup n rest

lemma findTypeSection_replace (l : List RawSection) :
    ∀ idx d bytes, findTypeSection l = some (idx, d) →
      findTypeSection (replaceAtStructural idx bytes l) = some (idx, bytes) := by
  induction l with
  | nil => intro idx d bytes h; simp [findTypeSection] at h
  | cons s rest ih =>
    intro idx d bytes h
    by_cases hk : s.kind = .typeSec
    · have hstruct : s.kind.isStructural = true := by rw [hk]; rfl
      simp only [findTypeSection, hk, if_true, Option.some.injEq, Prod.mk.injEq] at h
      obtain ⟨hidx, -⟩ := h
      subst hidx
      simp [replaceAtStructural, hstruct, findTypeSection, hk]
    · simp only [findTypeSection, hk, if_false] at h
      rcases hrest : findTypeSection rest with - | ⟨i, d'⟩
      · rw [hrest] at h; simp at h
      · rw [hrest] at h
        simp only [Option.some.injEq, Prod.mk.injEq] at h
        obtain ⟨hidx, hd⟩ := h
        by_cases hstruct : s.kind.isStructural
        · rw [if_pos hstruct] at hidx
          subst hidx
          have hne : ¬ (i + 1 = 0) := by omega
          simp only [replaceAtStructural, hstruct, if_true, hne, if_false,
            Nat.add_sub_cancel]
          simp only [findTypeSection, hk, if_false, ih i d' bytes hrest, hstruct,
            if_true]
        · rw [if_neg hstruct] at hidx
          subst hidx
          have hsf : s.kind.isStructural = false := by
            cases hb : s.kind.isStructural
            · rfl
            · exact absurd hb hstruct
          simp only [replaceAtStructural, hsf, Bool.false_eq_true, if_false]
          simp only [findTypeSection, hk, if_false, ih i d' bytes hrest, hsf,
            Bool.false_eq_true, if_false]

lemma findTypeSection_replace_set (l : List RawSection) :
    ∀ idx d bytes, findTypeSection l = some (idx, d) →
      ∃ j s, l[j]? = some s ∧ s.kind = .typeSec ∧ s.data = d ∧
        replaceAtStructural idx bytes l = l.set j ⟨.typeSec, bytes⟩ := by
  induction l with
  | nil => intro idx d bytes h; simp [findTypeSection] at h
  | cons s rest ih =>
    intro idx d bytes h
    by_cases hk : s.kind = .typeSec
    · have hstruct : s.kind.isStructural = true := by rw [hk]; rfl
      simp only [findTypeSection, hk, if_true, Option.some.injEq, Prod.mk.injEq] at h
      obtain ⟨hidx, hd⟩ := h
      subst hidx
      refine ⟨0, s, by simp, hk, hd, ?_⟩
      simp [replaceAtStructural, SectionKind.isStructural, hk]
    · simp only [findTypeSection, hk, if_false] at h
      rcases hrest : findTypeSection rest with - | ⟨i, d'⟩
      · rw [hrest] at h; simp at h
      · rw [hrest] at h
        simp only [Option.some.injEq, Prod.mk.injEq] at h
        obtain ⟨hidx, hd⟩ := h
        subst hd
        obtain ⟨j, t, hjt, htk, htd, hrepl⟩ := ih i d' bytes hrest
        by_cases hstruct : s.kind.isStructural
        · rw [if_pos hstruct] at hidx
          subst hidx
          refine ⟨j + 1, t, by simpa using hjt, htk, htd, ?_⟩
          have hne : ¬ (i + 1 = 0) := by omega
          simp only [replaceAtStructural, hstruct, if_true, hne, if_false,
            Nat.add_sub_cancel, hrepl, List.set_cons_succ]
        · rw [if_neg hstruct] at hidx
          subst hidx
          refine ⟨j + 1, t, by simpa using hjt, htk, htd, ?_⟩
          have hsf : s.kind.isStructural = false := by
            cases hb : s.kind.isStructural
            · rfl
            · exact absurd hb hstruct
          simp only [replaceAtStructural, hsf, Bool.false_eq_true, if_false, hrepl,
            List.set_cons_succ]

lemma findTypeSection_insert (l : List RawSection) (bytes : List Nat) :
    findTypeSection l = none →
      findTypeSection (insertAtStructural 0 ⟨.typeSec, bytes⟩ l) = some (0, bytes) := by
  induction l with
  | nil =>
    intro h
    simp [insertAtStructural, findTypeSection]
  | cons s rest ih =>
    intro h
    by_cases hk : s.kind = .typeSec
    · simp [findTypeSection, hk] at h
    · simp only [findTypeSection, hk, if_false] at h
      rcases hrest : findTypeSection rest with - | ⟨i, d'⟩
      · by_cases hstruct : s.kind.isStructural
        · simp [insertAtStructural, hstruct, findTypeSection]
        · have hsf : s.kind.isStructural = false := by
            cases hb : s.kind.isStructural
            · rfl
            · exact absurd hb hstruct
          simp only [insertAtStructural, hsf, Bool.false_eq_true, if_false]
          simp only [findTypeSection, hk, if_false, ih hrest, hsf, Bool.false_eq_true,
            if_false]
      · rw [hrest] at h; simp at h

lemma decodeValTypeByte_encode (v : ValType) :
    decodeValTypeByte (encodeValType v) = some (reparsedValType v) := by
  cases v <;> rfl

lemma translate_reparsed (v : ValType) : translate_type (reparsedValType v) = .ok v := by
  cases v <;> rfl

lemma translateList_reparsed (vs : List ValType) :
    translateList (vs.map reparsedValType) = .ok vs := by
  induction vs with
  | nil => rfl
  | cons v vs ih => simp [translateList, translate_reparsed, ih]

lemma readPVals_encoded (vs : List ValType) (tail : List Nat) :
    readPVals vs.length (vs.map encodeValType ++ tail) = .ok (vs.map reparsedValType, tail) := by
  induction vs with
  | nil => simp [readPVals]
  | cons v vs ih => simp [readPVals, decodeValTypeByte_encode, ih]

lemma readPVec_encoded (vs : List ValType) (tail : List Nat) :
    readPVec (encodeLEB vs.length ++ (vs.map encodeValType ++ tail)) =
      .ok (vs.map reparsedValType, tail) := by
  simp [readPVec, decodeLEB_encodeLEB, readPVals_encoded]

lemma readPType_encodedSig (s : Sig) (tail : List Nat) :
    readPType (encodeSig s ++ tail) =
      .ok (.Func ⟨s.params.map reparsedValType, s.results.map reparsedValType⟩, tail) := by
  simp [encodeSig, readPType, List.append_assoc, readPVec_encoded]

lemma readAndTranslate_encoded (L : List Sig) (tail : List Nat) :
    readAndTranslate L.length ((L.map encodeSig).flatten ++ tail) = .ok L := by
  induction L with
  | nil => simp [readAndTranslate]
  | cons s L ih =>
    simp [readAndTranslate, List.append_assoc, readPType_encodedSig,
      translateList_reparsed, ih]

lemma decode_encode (L : List Sig) : decodeSection (encodeTypeSection L) = .ok L := by
  have h7 := readAndTranslate_encoded L []
  rw [List.append_nil] at h7
  simp [decodeSection, encodeTypeSection, decodeLEB_encodeLEB, h7]

lemma mutate_rng_eq (self : AddTypeMutator) (rng : Rng) (info : ModuleInfo) :
    (mutate self rng info).2.2 = (generateSig self rng).2 := by
  obtain ⟨sig, rng', hg, hm⟩ := mutate_eq self rng info
  rw [hm, hg]
  rcases hts : get_type_section info with - | ⟨idx, data⟩
  · simp
  · rcases hd : decodeSection data with sigs | e' | - <;> simp [hd]

lemma generateSig_congr (self : AddTypeMutator) (rng1 rng2 : Rng)
    (hc : rng1.cursor = rng2.cursor)
    (hs : ∀ n, n < rng1.cursor + (2 + self.max_params + self.max_results) →
      rng1.stream n = rng2.stream n) :
    (generateSig self rng1).1 = (generateSig self rng2).1 ∧
    (generateSig self rng1).2.cursor = (generateSig self rng2).2.cursor := by
  obtain ⟨sig1, h1, hp1, hr1, hpg1, hrg1⟩ := generateSig_char self rng1
  obtain ⟨sig2, h2, hp2, hr2, hpg2, hrg2⟩ := generateSig_char self rng2
  rw [← hc] at hp2 hr2 hpg2 hrg2
  have hmp1 : sig1.params.length ≤ self.max_params := by
    rw [hp1]; exact Nat.le_of_lt_succ (Nat.mod_lt _ (by omega))
  have hpl : sig1.params.length = sig2.params.length := by
    rw [hp1, hp2, hs rng1.cursor (by omega)]
  have hparams : sig1.params = sig2.params := by
    apply List.ext_get hpl
    intro i hi1 hi2
    have e1 := hpg1 i hi1
    have e2 := hpg2 i hi2
    rw [hs (rng1.cursor + 1 + i) (by omega)] at e1
    have := e1.symm.trans e2
    simpa using this
  rw [← hpl] at hr2 hrg2
  have hmr1 : sig1.results.length ≤ self.max_results := by
    rw [hr1]; exact Nat.le_of_lt_succ (Nat.mod_lt _ (by omega))
  have hrl : sig1.results.length = sig2.results.length := by
    rw [hr1, hr2, hs (rng1.cursor + 1 + sig1.params.length) (by omega)]
  have hresults : sig1.results = sig2.results := by
    apply List.ext_get hrl
    intro j hj1 hj2
    have e1 := hrg1 j hj1
    have e2 := hrg2 j hj2
    rw [hs (rng1.cursor + 2 + sig1.params.length + j) (by omega)] at e1
    have := e1.symm.trans e2
    simpa using this
  have hsig : sig1 = sig2 := by
    cases sig1; cases sig2
    simp only at hparams hresults
    simp [hparams, hresults]
  rw [h1, h2, hsig, hc]
  subst hsig
  simp

/-- C1 (amended): mutate never returns an UnsupportedConstruct error value.  A
type-table entry that is not a plain function type (or a parser-accepted reference kind
outside the supported two) makes the decode pipeline panic, and mutate then terminates
with that unchecked fault rather than an error. -/
theorem add_type_no_unsupported_error (self : AddTypeMutator) (rng : Rng)
    (info : ModuleInfo) :
    (mutate self rng info).1 ≠ .err .unsupportedConstruct ∧
    (∀ idx data, get_type_section info = some (idx, data) →
      decodeSection data = .panik → (mutate self rng info).1 = .panik) := by
  obtain ⟨sig, rng', hg, hm⟩ := mutate_eq self rng info
  constructor
  · rw [hm]
    rcases hts : get_type_section info with - | ⟨idx, data⟩
    · simp
    · rcases hd : decodeSection data with sigs | e' | -
      · simp [hd]
      · have he : e' ≠ .unsupportedConstruct := fun hE =>
          decodeSection_ne_unsup data (hE ▸ hd)
        simp [hd, he]
      · simp [hd]
  · intro idx data hts hd
    rw [hm]
    simp [hts, hd]

/-- C1 counterexample: on a module whose type table holds one continuation record,
mutate terminates with a panic (the unimplemented arm), not with an UnsupportedConstruct
error as the claim states. -/
theorem cont_entry_panics_cex :
    (mutate ⟨0, 0⟩ rng0 contInfo).1 = .panik ∧
    (mutate ⟨0, 0⟩ rng0 contInfo).1 ≠ .err .unsupportedConstruct := by
  exact ⟨by decide, by decide⟩

/-- C1 witness: the amended theorem applied to the concrete continuation-record
module, discharging its hypotheses there. -/
theorem add_type_no_unsupported_error_witness :
    (mutate ⟨0, 0⟩ rng0 contInfo).1 ≠ .err .unsupportedConstruct ∧
    (mutate ⟨0, 0⟩ rng0 contInfo).1 = .panik :=
  ⟨(add_type_no_unsupported_error ⟨0, 0⟩ rng0 contInfo).1,
   (add_type_no_unsupported_error ⟨0, 0⟩ rng0 contInfo).2 0 [1, 0x5F, 0]
     (by decide) (by decide)⟩

/-- C2 (amended): every invocation of mutate advances the random source by exactly
2 + params + results draws, unconditionally before any lookup of the existing type
table (so the advanced source equals the one generateSig leaves, for every module), and
the draws occur in the fixed order: param-count draw at the cursor, then the param type
draws left-to-right, then the result-count draw, then the result type draws
left-to-right. -/
theorem rng_draw_order (self : AddTypeMutator) (rng : Rng) (info : ModuleInfo) :
    ∃ sig : Sig,
      (generateSig self rng).1 = .ok sig ∧
      (mutate self rng info).2.2 = (generateSig self rng).2 ∧
      (generateSig self rng).2.stream = rng.stream ∧
      (generateSig self rng).2.cursor =
        rng.cursor + (2 + sig.params.length + sig.results.length) ∧
      sig.params.length = rng.stream rng.cursor % (self.max_params + 1) ∧
      (∀ i (hi : i < sig.params.length),
        valtypeOfTag (rng.stream (rng.cursor + 1 + i) % 7) = .ok (sig.params.get ⟨i, hi⟩)) ∧
      sig.results.length =
        rng.stream (rng.cursor + 1 + sig.params.length) % (self.max_results + 1) ∧
      (∀ j (hj : j < sig.results.length),
        valtypeOfTag (rng.stream (rng.cursor + 2 + sig.params.length + j) % 7) =
          .ok (sig.results.get ⟨j, hj⟩)) := by
  obtain ⟨sig, hg, hp, hr, hpg, hrg⟩ := generateSig_char self rng
  exact ⟨sig, by rw [hg], mutate_rng_eq self rng info, by rw [hg], by rw [hg],
    hp, hpg, hr, hrg⟩

/-- C2 counterexample: a concrete random source on which the draw order the claim
asserts (param count, result count, then the type draws) produces a different signature
than the code, whose result-count draw comes after the param type draws. -/
theorem rng_draw_order_cex :
    (generateSig ⟨1, 1⟩ rngT).1 = .ok ⟨[.F64], [.V128]⟩ ∧
    (generateSigSpecOrder ⟨1, 1⟩ rngT).1 = .ok ⟨[.I64], [.V128]⟩ ∧
    (generateSig ⟨1, 1⟩ rngT).1 ≠ (generateSigSpecOrder ⟨1, 1⟩ rngT).1 :=
  ⟨by decide, by decide, by decide⟩

/-- C2 witness: the amended draw-order theorem applied at a concrete mutator, random
source and module. -/
theorem rng_draw_order_witness :
    ∃ sig : Sig,
      (generateSig ⟨1, 1⟩ rngT).1 = .ok sig ∧
      (mutate ⟨1, 1⟩ rngT noTypesInfo).2.2 = (generateSig ⟨1, 1⟩ rngT).2 ∧
      (generateSig ⟨1, 1⟩ rngT).2.stream = rngT.stream ∧
      (generateSig ⟨1, 1⟩ rngT).2.cursor =
        0 + (2 + sig.params.length + sig.results.length) ∧
      sig.params.length = rngT.stream 0 % 2 ∧
      (∀ i (hi : i < sig.params.length),
        valtypeOfTag (rngT.stream (0 + 1 + i) % 7) = .ok (sig.params.get ⟨i, hi⟩)) ∧
      sig.results.length = rngT.stream (0 + 1 + sig.params.length) % 2 ∧
      (∀ j (hj : j < sig.results.length),
        valtypeOfTag (rngT.stream (0 + 2 + sig.params.length + j) % 7) =
          .ok (sig.results.get ⟨j, hj⟩)) :=
  rng_draw_order ⟨1, 1⟩ rngT noTypesInfo

/-- C4: whenever mutate returns an error, no store operation (replace or insert) has
been requested, so the module/section store is untouched. -/
theorem error_atomicity (self : AddTypeMutator) (rng : Rng) (info : ModuleInfo)
    (e : Error) (h : (mutate self rng info).1 = .err e) :
    (mutate self rng info).2.1 = [] := by
  obtain ⟨sig, rng', hg, hm⟩ := mutate_eq self rng info
  rw [hm] at h ⊢
  rcases hts : get_type_section info with - | ⟨idx, data⟩
  · exact absurd h (by simp [hts])
  · rcases hd : decodeSection data with sigs | e' | -
    · exact absurd h (by simp [hts, hd])
    · simp [hd]
    · exact absurd h (by simp [hts, hd])

/-- C4 witness: a module whose type table announces two records but holds one makes
mutate fail with a decode error, and the operation log is empty. -/
theorem error_atomicity_witness :
    (mutate ⟨0, 0⟩ rng0 truncInfo).1 = .err .decodeError ∧
    (mutate ⟨0, 0⟩ rng0 truncInfo).2.1 = [] :=
  ⟨by decide, error_atomicity ⟨0, 0⟩ rng0 truncInfo .decodeError (by decide)⟩

/-- C7: decoding the bytes produced by encoding any list of signatures over the seven
supported value types yields exactly that list back. -/
theorem encode_decode_roundtrip (L : List Sig) :
    decodeSection (encodeTypeSection L) = .ok L :=
  decode_encode L

/-- C9: the generated signature always exists (generation cannot fail), its parameter
count is at most max_params, its result count at most max_results, every element is one
of the seven supported value types, and zero bounds force the empty signature. -/
theorem signature_bounds (self : AddTypeMutator) (rng : Rng) :
    ∃ sig : Sig, (generateSig self rng).1 = .ok sig ∧
      sig.params.length ≤ self.max_params ∧
      sig.results.length ≤ self.max_results ∧
      (∀ v ∈ sig.params,
        v ∈ [ValType.I32, .I64, .F32, .F64, .V128, .ExternRef, .FuncRef]) ∧
      (∀ v ∈ sig.results,
        v ∈ [ValType.I32, .I64, .F32, .F64, .V128, .ExternRef, .FuncRef]) ∧
      (self.max_params = 0 → self.max_results = 0 → sig = ⟨[], []⟩) := by
  obtain ⟨sig, hg, hp, hr, -, -⟩ := generateSig_char self rng
  refine ⟨sig, by rw [hg], ?_, ?_, ?_, ?_, ?_⟩
  · rw [hp]; exact Nat.le_of_lt_succ (Nat.mod_lt _ (by omega))
  · rw [hr]; exact Nat.le_of_lt_succ (Nat.mod_lt _ (by omega))
  · intro v hv; cases v <;> simp
  · intro v hv; cases v <;> simp
  · intro hmp hmr
    have hp0 : sig.params.length = 0 := by rw [hp, hmp]; omega
    have hr0 : sig.results.length = 0 := by rw [hr, hmr]; omega
    have hps : sig.params = [] := List.length_eq_zero.mp hp0
    have hrs : sig.results = [] := List.length_eq_zero.mp hr0
    cases sig
    simp only at hps hrs
    simp [hps, hrs]

/-- C9 witness: the bounds theorem applied at a concrete mutator and random source. -/
theorem signature_bounds_witness :
    ∃ sig : Sig, (generateSig ⟨1, 1⟩ rngT).1 = .ok sig ∧
      sig.params.length ≤ 1 ∧
      sig.results.length ≤ 1 ∧
      (∀ v ∈ sig.params,
        v ∈ [ValType.I32, .I64, .F32, .F64, .V128, .ExternRef, .FuncRef]) ∧
      (∀ v ∈ sig.results,
        v ∈ [ValType.I32, .I64, .F32, .F64, .V128, .ExternRef, .FuncRef]) ∧
      ((1 : Nat) = 0 → (1 : Nat) = 0 → sig = ⟨[], []⟩) :=
  signature_bounds ⟨1, 1⟩ rngT

/-- C10: random_valtype is total: whatever the random source holds, the drawn tag lands
in the seven-armed match, the unreachable arm is never taken, and the result is one of
exactly seven pairwise-distinct value types. -/
theorem random_valtype_total (rng : Rng) :
    (random_valtype rng).1 ∈
      [PResult.ok ValType.I32, .ok .I64, .ok .F32, .ok .F64, .ok .V128,
        .ok .ExternRef, .ok .FuncRef] ∧
    ([PResult.ok ValType.I32, .ok .I64, .ok .F32, .ok .F64, .ok .V128,
        .ok .ExternRef, .ok .FuncRef] : List (PResult ValType)).Nodup ∧
    (random_valtype rng).1 ≠ .panik := by
  have hk : rng.stream rng.cursor % 7 < 7 := Nat.mod_lt _ (by norm_num)
  have hrv : (random_valtype rng).1 = valtypeOfTag (rng.stream rng.cursor % 7) := rfl
  refine ⟨?_, by decide, ?_⟩
  · rw [hrv]
    revert hk
    generalize rng.stream rng.cursor % 7 = k
    intro hk
    interval_cases k <;> simp [valtypeOfTag]
  · rw [hrv]
    revert hk
    generalize rng.stream rng.cursor % 7 = k
    intro hk
    interval_cases k <;> simp [valtypeOfTag]

/-- C3: when the existing type table decodes to N supported entries, a successful
mutate produces a table whose decoded content is exactly the original N entries in
order followed by the one new signature: N+1 entries, first N unchanged. -/
theorem growth_invariant (self : AddTypeMutator) (rng : Rng) (info : ModuleInfo)
    (idx : Nat) (data : List Nat) (sigs : List Sig) (sig : Sig)
    (h1 : get_type_section info = some (idx, data))
    (h2 : decodeSection data = .ok sigs)
    (h3 : (generateSig self rng).1 = .ok sig) :
    ∃ m' : ModuleInfo,
      (mutate self rng info).1 = .ok m' ∧
      get_type_section m' = some (idx, encodeTypeSection (sigs ++ [sig])) ∧
      decodeSection (encodeTypeSection (sigs ++ [sig])) = .ok (sigs ++ [sig]) ∧
      (sigs ++ [sig]).length = sigs.length + 1 ∧
      (sigs ++ [sig]).take sigs.length = sigs := by
  obtain ⟨sig', rng', hg, hm⟩ := mutate_eq self rng info
  have hss : sig' = sig := by rw [hg] at h3; simpa using h3
  rw [← hss]
  refine ⟨replace_section idx (encodeTypeSection (sigs ++ [sig'])) info, ?_, ?_,
    decode_encode _, by simp, by simp⟩
  · rw [hm]
    simp [h1, h2]
  · exact findTypeSection_replace info.sections idx data _ h1

/-- C3 witness: the growth theorem applied to a concrete module whose table holds one
signature, discharging its hypotheses there. -/
theorem growth_invariant_witness :
    get_type_section okInfo = some (0, [1, 0x60, 1, 0x7F, 1, 0x7E]) ∧
    decodeSection [1, 0x60, 1, 0x7F, 1, 0x7E] = .ok [⟨[.I32], [.I64]⟩] ∧
    (generateSig ⟨0, 0⟩ rng0).1 = .ok ⟨[], []⟩ ∧
    (∃ m' : ModuleInfo,
      (mutate ⟨0, 0⟩ rng0 okInfo).1 = .ok m' ∧
      get_type_section m' =
        some (0, encodeTypeSection ([⟨[.I32], [.I64]⟩] ++ [⟨[], []⟩])) ∧
      decodeSection (encodeTypeSection ([⟨[.I32], [.I64]⟩] ++ [⟨[], []⟩])) =
        .ok ([⟨[.I32], [.I64]⟩] ++ [⟨[], []⟩]) ∧
      ([(⟨[.I32], [.I64]⟩ : Sig)] ++ [(⟨[], []⟩ : Sig)]).length =
        [(⟨[.I32], [.I64]⟩ : Sig)].length + 1 ∧
      ([(⟨[.I32], [.I64]⟩ : Sig)] ++ [(⟨[], []⟩ : Sig)]).take
          [(⟨[.I32], [.I64]⟩ : Sig)].length = [⟨[.I32], [.I64]⟩]) :=
  ⟨by decide, by decide, by decide,
   growth_invariant ⟨0, 0⟩ rng0 okInfo 0 [1, 0x60, 1, 0x7F, 1, 0x7E]
     [⟨[.I32], [.I64]⟩] ⟨[], []⟩ (by decide) (by decide) (by decide)⟩

/-- C5: on a module with no type table, a successful mutate requests exactly one
insertion at structural index 0, and the resulting module has a type table at
structural index 0 whose content decodes to exactly the one new signature, independent
of leading non-structural sections. -/
theorem insertion_policy (self : AddTypeMutator) (rng : Rng) (info : ModuleInfo)
    (sig : Sig)
    (h1 : get_type_section info = none)
    (h3 : (generateSig self rng).1 = .ok sig) :
    ∃ m' : ModuleInfo,
      (mutate self rng info).1 = .ok m' ∧
      (mutate self rng info).2.1 = [.insertSection 0 (encodeTypeSection [sig])] ∧
      get_type_section m' = some (0, encodeTypeSection [sig]) ∧
      decodeSection (encodeTypeSection [sig]) = .ok [sig] := by
  obtain ⟨sig', rng', hg, hm⟩ := mutate_eq self rng info
  have hss : sig' = sig := by rw [hg] at h3; simpa using h3
  rw [← hss]
  refine ⟨insert_section 0 (encodeTypeSection [sig']) info, ?_, ?_, ?_, decode_encode _⟩
  · rw [hm]
    simp [h1]
  · rw [hm]
    simp [h1]
  · exact findTypeSection_insert info.sections _ h1

/-- C5 witness: the insertion theorem applied to a concrete module with a custom
section and another structural section but no type table. -/
theorem insertion_policy_witness :
    get_type_section noTypesInfo = none ∧
    (generateSig ⟨0, 0⟩ rng0).1 = .ok ⟨[], []⟩ ∧
    (∃ m' : ModuleInfo,
      (mutate ⟨0, 0⟩ rng0 noTypesInfo).1 = .ok m' ∧
      (mutate ⟨0, 0⟩ rng0 noTypesInfo).2.1 =
        [.insertSection 0 (encodeTypeSection [⟨[], []⟩])] ∧
      get_type_section m' = some (0, encodeTypeSection [⟨[], []⟩]) ∧
      decodeSection (encodeTypeSection [⟨[], []⟩]) = .ok [⟨[], []⟩]) :=
  ⟨by decide, by decide,
   insertion_policy ⟨0, 0⟩ rng0 noTypesInfo ⟨[], []⟩ (by decide) (by decide)⟩

/-- C6: on a module whose type table sits at structural index k, a successful mutate
keeps the table at structural index k and rewrites only that raw section's payload: the
resulting section list is the original with exactly one position overwritten (same
kind, new bytes), every other section untouched. -/
theorem replacement_policy (self : AddTypeMutator) (rng : Rng) (info : ModuleInfo)
    (k : Nat) (data : List Nat) (sigs : List Sig) (sig : Sig)
    (h1 : get_type_section info = some (k, data))
    (h2 : decodeSection data = .ok sigs)
    (h3 : (generateSig self rng).1 = .ok sig) :
    ∃ (m' : ModuleInfo) (j : Nat) (s : RawSection),
      (mutate self rng info).1 = .ok m' ∧
      get_type_section m' = some (k, encodeTypeSection (sigs ++ [sig])) ∧
      info.sections[j]? = some s ∧
      s.kind = .typeSec ∧
      m'.sections = info.sections.set j ⟨.typeSec, encodeTypeSection (sigs ++ [sig])⟩ := by
  obtain ⟨sig', rng', hg, hm⟩ := mutate_eq self rng info
  have hss : sig' = sig := by rw [hg] at h3; simpa using h3
  rw [← hss]
  obtain ⟨j, s, hjs, hsk, -, hrepl⟩ :=
    findTypeSection_replace_set info.sections k data (encodeTypeSection (sigs ++ [sig'])) h1
  refine ⟨replace_section k (encodeTypeSection (sigs ++ [sig'])) info, j, s, ?_, ?_,
    hjs, hsk, ?_⟩
  · rw [hm]
    simp [h1, h2]
  · exact findTypeSection_replace info.sections k data _ h1
  · exact hrepl

/-- C6 witness: the replacement theorem applied to a concrete module with a leading
custom section, a one-entry type table and a trailing structural section. -/
theorem replacement_policy_witness :
    get_type_section okInfo = some (0, [1, 0x60, 1, 0x7F, 1, 0x7E]) ∧
    decodeSection [1, 0x60, 1, 0x7F, 1, 0x7E] = .ok [⟨[.I32], [.I64]⟩] ∧
    (generateSig ⟨0, 0⟩ rng0).1 = .ok ⟨[], []⟩ ∧
    (∃ (m' : ModuleInfo) (j : Nat) (s : RawSection),
      (mutate ⟨0, 0⟩ rng0 okInfo).1 = .ok m' ∧
      get_type_section m' =
        some (0, encodeTypeSection ([⟨[.I32], [.I64]⟩] ++ [⟨[], []⟩])) ∧
      okInfo.sections[j]? = some s ∧
      s.kind = .typeSec ∧
      m'.sections = okInfo.sections.set j
        ⟨.typeSec, encodeTypeSection ([⟨[.I32], [.I64]⟩] ++ [⟨[], []⟩])⟩) :=
  ⟨by decide, by decide, by decide,
   replacement_policy ⟨0, 0⟩ rng0 okInfo 0 [1, 0x60, 1, 0x7F, 1, 0x7E]
     [⟨[.I32], [.I64]⟩] ⟨[], []⟩ (by decide) (by decide) (by decide)⟩

/-- C8: mutate is deterministic in the random seed: two random sources at the same
cursor whose streams agree on every position the invocation can consume produce the
same mutation outcome, the same store operations, and the same final cursor, on any
module. -/
theorem mutate_deterministic (self : AddTypeMutator) (info : ModuleInfo)
    (rng1 rng2 : Rng)
    (hc : rng1.cursor = rng2.cursor)
    (hs : ∀ n, n < rng1.cursor + (2 + self.max_params + self.max_results) →
      rng1.stream n = rng2.stream n) :
    (mutate self rng1 info).1 = (mutate self rng2 info).1 ∧
    (mutate self rng1 info).2.1 = (mutate self rng2 info).2.1 ∧
    (mutate self rng1 info).2.2.cursor = (mutate self rng2 info).2.2.cursor := by
  obtain ⟨hfst, hcur⟩ := generateSig_congr self rng1 rng2 hc hs
  obtain ⟨sig1, rng1', hg1, hm1⟩ := mutate_eq self rng1 info
  obtain ⟨sig2, rng2', hg2, hm2⟩ := mutate_eq self rng2 info
  rw [hg1, hg2] at hfst hcur
  simp only at hfst hcur
  obtain rfl : sig1 = sig2 := by simpa using hfst
  rw [hm1, hm2]
  rcases hts : get_type_section info with - | ⟨idx, data⟩
  · simp [hcur]
  · rcases hd : decodeSection data with sigs | e' | - <;> simp [hd, hcur]

/-- C8 witness: the determinism theorem applied to two concrete random sources that
agree on the four consumable positions and differ beyond them. -/
theorem mutate_deterministic_witness :
    rngW1.cursor = rngW2.cursor ∧
    (∀ n, n < rngW1.cursor + (2 + 1 + 1) → rngW1.stream n = rngW2.stream n) ∧
    (mutate ⟨1, 1⟩ rngW1 okInfo).1 = (mutate ⟨1, 1⟩ rngW2 okInfo).1 ∧
    (mutate ⟨1, 1⟩ rngW1 okInfo).2.1 = (mutate ⟨1, 1⟩ rngW2 okInfo).2.1 ∧
    (mutate ⟨1, 1⟩ rngW1 okInfo).2.2.cursor = (mutate ⟨1, 1⟩ rngW2 okInfo).2.2.cursor :=
  ⟨rfl, by decide,
   mutate_deterministic ⟨1, 1⟩ okInfo rngW1 rngW2 rfl (by decide)⟩

end AddType
